import Mathlib

/-!
# Payment notification verifier (`Payment_Return.go`)

A shallow embedding of the PayFast notification handler of the WhatsAppBot web API
and the properties of its field extraction, canonicalisation and trust checks.

Go strings are modelled by `String` (so by their UTF-8 bytes wherever the code works on
bytes); a Go `map[string]string` by an association list together with, for every `range`
statement, the key order that the runtime picked (Go leaves that order unspecified).
Library calls that reach outside the process (DNS, the outbound HTTP call) are read
from a `World`; the digest of `crypto/md5` is a parameter of the signature check.  A
run-time panic is the value `none`.
-/

set_option autoImplicit false

namespace PaymentReturn

/-! ## Go library functions used by the handler -/

/-- Go `strings.TrimSuffix`: `s` without the trailing `suffix`, or `s` itself. -/
def strings_TrimSuffix (s suffix : String) : String :=
  if suffix.data.isSuffixOf s.data then
    ⟨s.data.take (s.data.length - suffix.data.length)⟩
  else s

/-- Go `strings.TrimPrefix`: `s` without the leading `pre`, or `s` itself. -/
def strings_TrimPrefix (s pre : String) : String :=
  if pre.data.isPrefixOf s.data then ⟨s.data.drop pre.data.length⟩ else s

/-- Go `strings.Join`. -/
def strings_Join : List String → String → String
  | [], _ => ""
  | e :: es, sep => es.foldl (fun b s => b ++ sep ++ s) e

/-- Worker of `strings_Split` for a one-character separator. -/
def splitChars (sep : Char) : List Char → List Char → List String
  | [], cur => [⟨cur.reverse⟩]
  | c :: cs, cur =>
    if c = sep then ⟨cur.reverse⟩ :: splitChars sep cs [] else splitChars sep cs (c :: cur)

/-- Go `strings.Split` for a one-character separator. -/
def strings_Split (s : String) (sep : Char) : List String :=
  splitChars sep s.data []

/-- UTF-8 bytes of one character. -/
def utf8Bytes (c : Char) : List Nat :=
  let n := c.toNat
  if n < 0x80 then [n]
  else if n < 0x800 then [0xC0 + n / 64, 0x80 + n % 64]
  else if n < 0x10000 then [0xE0 + n / 4096, 0x80 + n / 64 % 64, 0x80 + n % 64]
  else [0xF0 + n / 262144, 0x80 + n / 4096 % 64, 0x80 + n / 64 % 64, 0x80 + n % 64]

/-- The bytes of a Go string. -/
def bytesOf (s : String) : List Nat :=
  s.data.flatMap utf8Bytes

/-- Go `net/url` `shouldEscape(c, encodeQueryComponent)`: everything but the
unreserved characters is escaped. -/
def shouldEscape (c : Nat) : Bool :=
  if (97 ≤ c ∧ c ≤ 122) ∨ (65 ≤ c ∧ c ≤ 90) ∨ (48 ≤ c ∧ c ≤ 57) then false
  else if c = 45 ∨ c = 95 ∨ c = 46 ∨ c = 126 then false
  else true

/-- Go `net/url` table `upperhex`. -/
def upperhex : List Char := "0123456789ABCDEF".data

/-- One byte in the output of `url.QueryEscape`. -/
def escapeByte (c : Nat) : List Char :=
  if c = 32 then ['+']
  else if shouldEscape c then ['%', upperhex.getD (c / 16) '0', upperhex.getD (c % 16) '0']
  else [Char.ofNat c]

/-- Go `url.QueryEscape`. -/
def QueryEscape (s : String) : String :=
  ⟨(bytesOf s).flatMap escapeByte⟩

/-- Go `encoding/hex` table `hextable`. -/
def hextable : List Char := "0123456789abcdef".data

/-- Go `hex.EncodeToString`. -/
def hex_EncodeToString (src : List (Fin 256)) : String :=
  ⟨src.flatMap (fun v => [hextable.getD (v.val / 16) '0', hextable.getD (v.val % 16) '0'])⟩

/-! ## Go maps -/

/-- A Go `map[string]β`, as the list of its entries (keys pairwise distinct). -/
abbrev GoMap (β : Type) := List (String × β)

/-- Map indexing `m[key]`: the zero value of `β` for an absent key. -/
def GoMap.index {β : Type} [Inhabited β] (m : GoMap β) (key : String) : β :=
  match m.lookup key with
  | some v => v
  | none => default

/-- Map assignment `m[key] = val`. -/
def GoMap.set {β : Type} : GoMap β → String → β → GoMap β
  | [], key, val => [(key, val)]
  | (k, v) :: rest, key, val =>
    if k = key then (k, val) :: rest else (k, v) :: GoMap.set rest key val

/-- The keys of a map. -/
def GoMap.keys {β : Type} (m : GoMap β) : List String := m.map Prod.fst

/-- A key order that a `range` over `m` may produce: every key exactly once. -/
def GoMap.RangeOrder {β : Type} (m : GoMap β) (order : List String) : Prop :=
  order.Perm m.keys

instance {β : Type} (m : GoMap β) (order : List String) : Decidable (m.RangeOrder order) := by
  unfold GoMap.RangeOrder; infer_instance

/-! ## The request and field extraction -/

/-- The part of `*http.Request` that the handler reads: the parsed query pairs in the
order of the query string, and the `Host`. -/
structure Request where
  Query : List (String × String)
  Host : String
deriving Repr, DecidableEq

/-- Go `url.Values.Get`: the first value of `key`, `""` when there is none. -/
def Request.Get (r : Request) (key : String) : String :=
  match r.Query.lookup key with
  | some v => v
  | none => ""

structure OrderData where
  OrderID : String
  PfPaymentID : String
  PaymentStatus : String
  ItemName : String
deriving Repr, DecidableEq

/-- The zero value `OrderData{}`. -/
def OrderData.zero : OrderData := ⟨"", "", "", ""⟩

/-- Formatting of an `OrderData` under the verb `%v`. -/
def OrderData.format (o : OrderData) : String :=
  "\x7b" ++ o.OrderID ++ " " ++ o.PfPaymentID ++ " " ++ o.PaymentStatus ++ " " ++ o.ItemName
    ++ "\x7d"

/-- Go `compileOrderData`; the error is carried by its message. -/
def compileOrderData (r : Request) : Except String OrderData :=
  let orderID := r.Get "m_payment_id"
  let pfPaymentID := r.Get "pf_payment_id"
  let paymentStatus := r.Get "payment_status"
  let itemName := r.Get "item_name"
  let missingFields : List String := []
  let missingFields := if orderID = "" then missingFields ++ ["m_payment_id"] else missingFields
  let missingFields := if pfPaymentID = "" then missingFields ++ ["pf_payment_id"] else missingFields
  let missingFields := if paymentStatus = "" then missingFields ++ ["payment_status"] else missingFields
  let missingFields := if itemName = "" then missingFields ++ ["item_name"] else missingFields
  if missingFields.length > 0 then
    .error ("missing required order data: " ++ strings_Join missingFields ", ")
  else
    .ok { OrderID := orderID, PfPaymentID := pfPaymentID,
          PaymentStatus := paymentStatus, ItemName := itemName }

/-! ## Canonicalisation -/

/-- Go `orderDataToMap`. -/
def orderDataToMap (orderData : OrderData) : GoMap String :=
  [("m_payment_id", orderData.OrderID),
   ("pf_payment_id", orderData.PfPaymentID),
   ("payment_status", orderData.PaymentStatus),
   ("item_name", orderData.ItemName)]

/-- The second loop of `checkPaymentResult`, over the keys in the order the `range`
yields them; `break` at the key `signature`. -/
def sumLoop (orderData : GoMap String) : List String → String → String
  | [], summedOrderData => summedOrderData
  | key :: rest, summedOrderData =>
    if key ≠ "signature" then
      sumLoop orderData rest
        (summedOrderData ++ (key ++ "=" ++ QueryEscape (orderData.index key) ++ "&"))
    else summedOrderData

/-- The first loop of `checkPaymentResult` (`orderData[key] = val` for every entry),
over the keys in the order the `range` yields them.  A Go map is a reference, so this
is the map the caller holds after the call. -/
def stripSlashes (orderData : GoMap String) (order1 : List String) : GoMap String :=
  order1.foldl (fun m key => m.set key (m.index key)) orderData

/-- Go `checkPaymentResult`.  `order1` and `order2` are the key orders of its two
`range` loops over the map. -/
def checkPaymentResult (orderData : GoMap String) (order1 order2 : List String) : String :=
  let orderData := stripSlashes orderData order1
  let summedOrderData := sumLoop orderData order2 ""
  strings_TrimSuffix summedOrderData "&"

/-! ## Signature check -/

/-- The 16-byte digest of `crypto/md5` over the bytes of a string. -/
abbrev Digest := String → Fin 16 → Fin 256

/-- The string `pfValidSignature` hashes (`tempParamString`). -/
def tempParamString (summedOrderData passPhrase : String) : String :=
  if passPhrase = "" then summedOrderData
  else summedOrderData ++ "&passphrase=" ++ QueryEscape passPhrase

/-- Go `pfValidSignature`, over the digest function `md5Sum`. -/
def pfValidSignature (md5Sum : Digest) (orderData : GoMap String)
    (summedOrderData passPhrase : String) : Bool :=
  let calculatedSignature :=
    hex_EncodeToString (List.ofFn (md5Sum (tempParamString summedOrderData passPhrase)))
  decide (orderData.index "signature" = calculatedSignature)

/-! ## Origin check -/

/-- Result of `net.LookupIP`: an error, or the addresses, each identified with its text
form `ip.String()`. -/
abbrev Resolver := String → Except String (List String)

/-- The hostnames trusted by `pfValidIP`. -/
def validHosts : List String :=
  ["www.payfast.co.za", "sandbox.payfast.co.za", "w1w.payfast.co.za", "w2w.payfast.co.za"]

/-- The origin host that `pfValidIP` looks up: scheme prefixes and path removed.
`none` stands for a run-time panic of the index expression. -/
def referrerHostOf (referrerURL : String) : Option String :=
  let referrerHost := strings_TrimPrefix referrerURL "http://"
  let referrerHost := strings_TrimPrefix referrerHost "https://"
  (strings_Split referrerHost '/').head?

/-- The addresses collected from the trusted hostnames (`validIps`). -/
def collectValidIps (LookupIP : Resolver) : List String :=
  validHosts.foldl
    (fun validIps pfHostname =>
      match LookupIP pfHostname with
      | .ok ips => ips.foldl (fun validIps ip => validIps ++ [ip]) validIps
      | .error _ => validIps)
    []

/-- Go `pfValidIP`; `none` stands for a run-time panic (index out of range). -/
def pfValidIP (LookupIP : Resolver) (referrerURL : String) : Option Bool := do
  let validIps := collectValidIps LookupIP
  let uniqueIps : GoMap Bool := validIps.foldl (fun m ip => m.set ip true) []
  let referrerHost ← referrerHostOf referrerURL
  match LookupIP referrerHost with
  | .error _ => pure false
  | .ok referrerIp =>
    let ip0 ← referrerIp.head?
    pure (uniqueIps.index ip0)

/-! ## Gateway confirmation -/

/-- The outbound request built by `http.NewRequest`. -/
structure OutRequest where
  Method : String
  URL : String
  Body : String
deriving Repr, DecidableEq

/-- What `client.Do` hands back: the status code and the outcome of reading the
body with `io.ReadAll`. -/
structure Response where
  StatusCode : Nat
  Body : Except String String

/-- Everything outside the process that one run of the handler reads. -/
structure World where
  /-- Outcome of `net.LookupIP`. -/
  LookupIP : Resolver
  /-- Error of `http.NewRequest` for a URL, if it has one. -/
  NewRequestError : String → Option String
  /-- Outcome of `client.Do`. -/
  Do : OutRequest → Except String Response
  /-- Error of `w.Write`, if it has one. -/
  WriteError : Option String
  /-- Key order of the first `range` over the order map. -/
  order1 : List String
  /-- Key order of the second `range` over the order map. -/
  order2 : List String

/-- Log lines of the package. -/
inductive LogEntry where
  | writeError (err : String)
  | line (s : String)
  | compileFailed (err : String)
  | signatureFailed (orderData : OrderData)
  | ipFailed (orderData : OrderData)
  | confirmationFailed (orderData : OrderData)
  | creatingRequest (err : String)
  | sendingRequest (err : String)
  | readingBody (err : String)
deriving Repr, DecidableEq

/-- The text of a log line. -/
def LogEntry.render : LogEntry → String
  | .writeError err => "error writing response:  " ++ err
  | .line s => s
  | .compileFailed err =>
    "Post payment check: compiling order data from payFast response failed: " ++ err
  | .signatureFailed o =>
    "Post payment check: Signature validity test failed - payment gateway data: " ++ o.format
  | .ipFailed o =>
    "Post payment check: Server IP test failed - payment gateway data: " ++ o.format
  | .confirmationFailed o =>
    "Post payment check: Server confirmation test failed - payment gateway data: " ++ o.format
  | .creatingRequest err => "Error creating request: " ++ err
  | .sendingRequest err => "Error sending request: " ++ err
  | .readingBody err => "Error reading response body: " ++ err

/-- Go `pfValidServerConfirmation`: the result and the lines it logs. -/
def pfValidServerConfirmation (w : World) (summedOrderData pfHost : String) :
    Bool × List LogEntry :=
  let url := "https://" ++ pfHost ++ "/eng/query/validate"
  match w.NewRequestError url with
  | some err => (false, [.creatingRequest err])
  | none =>
    match w.Do ⟨"POST", url, summedOrderData⟩ with
    | .error err => (false, [.sendingRequest err])
    | .ok resp =>
      match resp.Body with
      | .error err => (false, [.readingBody err])
      | .ok body => (decide (body = "VALID"), [])

/-! ## The notification handler -/

/-- Constant `ItemNamePrefix` of `main.go`. -/
def ItemNamePrefix : String := "Order"

/-- What one run of `PaymentNotifyHandler` leaves behind: the response written, the
log, whether the run ended in a panic, and the values of its local variables
(`none` when the run did not reach them). -/
structure Outcome where
  statusCode : Nat
  body : String
  log : List LogEntry
  panicked : Bool
  summedOrderData : Option String
  signatureValid : Option Bool
  ipValid : Option Bool
  confirmed : Option Bool
deriving Repr, DecidableEq

/-- Go `PaymentNotifyHandler(passPhrase, pfHost)` applied to a request. -/
def PaymentNotifyHandler (md5Sum : Digest) (w : World) (passPhrase pfHost : String)
    (r : Request) : Outcome :=
  let statusCode := 200
  let body := "Success"
  let log : List LogEntry :=
    match w.WriteError with
    | some err => [.writeError err]
    | none => []
  let itemID := r.Get "item_name"
  let log := log ++ [.line (strings_TrimPrefix itemID ItemNamePrefix)]
  match compileOrderData r with
  | .error err =>
    ⟨statusCode, body, log ++ [.compileFailed err], false, none, none, none, none⟩
  | .ok orderData =>
    let orderMap := orderDataToMap orderData
    let summedOrderData := checkPaymentResult orderMap w.order1 w.order2
    let orderMap := stripSlashes orderMap w.order1
    let signatureValid := pfValidSignature md5Sum orderMap summedOrderData passPhrase
    let log := if !signatureValid then log ++ [.signatureFailed orderData] else log
    match pfValidIP w.LookupIP r.Host with
    | none =>
      ⟨statusCode, body, log, true, some summedOrderData, some signatureValid, none, none⟩
    | some ipValid =>
      let log := if !ipValid then log ++ [.ipFailed orderData] else log
      let (confirmed, confirmationLog) := pfValidServerConfirmation w summedOrderData pfHost
      let log := log ++ confirmationLog
      let log := if confirmed then log ++ [.confirmationFailed orderData] else log
      ⟨statusCode, body, log, false, some summedOrderData, some signatureValid,
        some ipValid, some confirmed⟩

/-! ## Sample data -/

/-- The notification of the round-trip scenario. -/
def sampleRequest : Request :=
  ⟨[("m_payment_id", "1001"), ("pf_payment_id", "pf123"), ("payment_status", "COMPLETE"),
    ("item_name", "OrderWidget")], "www.payfast.co.za"⟩

/-- The order data of the round-trip scenario. -/
def sampleOrder : OrderData := ⟨"1001", "pf123", "COMPLETE", "OrderWidget"⟩

/-- The keys of the order map in the order `orderDataToMap` lists them. -/
def listedOrder : List String := ["m_payment_id", "pf_payment_id", "payment_status", "item_name"]

/-- The entry `key=urlencode(value)` of a key of the map. -/
def entryOf (m : GoMap String) (key : String) : String :=
  key ++ "=" ++ QueryEscape (m.index key)

/-- The required query parameters, in the order `compileOrderData` checks them. -/
def requiredFields : List String :=
  ["m_payment_id", "pf_payment_id", "payment_status", "item_name"]

/-- In the words of the specification: the required parameters that are empty or absent
in the request, in the fixed order. -/
def missingOf (r : Request) : List String :=
  requiredFields.filter
    (fun k => decide (r.Query.lookup k = none ∨ r.Query.lookup k = some ""))

/-- In the words of the specification: the lowercase hex encoding of a 128-bit digest,
two digits for each of its 16 bytes. -/
def lowerHex (d : Fin 16 → Fin 256) : String :=
  ⟨(List.ofFn d).flatMap (fun b => [Nat.digitChar (b.val / 16), Nat.digitChar (b.val % 16)])⟩

/-- A digest function for examples: every byte of the digest is zero. -/
def zeroDigest : Digest := fun _ _ => 0

/-- A world for examples: DNS answers nothing, the gateway is unreachable, and both
`range` loops follow the listed key order. -/
def deadWorld : World :=
  { LookupIP := fun _ => .error "no such host"
    NewRequestError := fun _ => none
    Do := fun _ => .error "connection refused"
    WriteError := none
    order1 := listedOrder
    order2 := listedOrder }

/-- The sample notification with a gateway field and a signature added. -/
def extraRequest : Request :=
  ⟨[("m_payment_id", "1001"), ("pf_payment_id", "pf123"), ("payment_status", "COMPLETE"),
    ("item_name", "OrderWidget"), ("amount_gross", "100.00"), ("signature", "abc")],
    "www.payfast.co.za"⟩

/-- The entries of the sample notification under the keys of the order map. -/
def sampleEntries : List String :=
  ["m_payment_id=1001", "pf_payment_id=pf123", "payment_status=COMPLETE",
    "item_name=OrderWidget"]

/-- A map of three fields submitted in the order `amount`, `signature`, `token`. -/
def signedMap : GoMap String := [("amount", "10"), ("signature", "abc"), ("token", "t")]

/-- A world for examples: every DNS name resolves to one address, and the gateway answers
the validation call with the given status and body. -/
def gatewayWorld (status : Nat) (body : String) : World :=
  { LookupIP := fun _ => .ok ["197.97.145.144"]
    NewRequestError := fun _ => none
    Do := fun _ => .ok ⟨status, .ok body⟩
    WriteError := none
    order1 := listedOrder
    order2 := listedOrder }

/-- A resolver for examples: the trusted names resolve, the lookup of `shop.example`
succeeds with no address. -/
def emptyAnswerResolver : Resolver :=
  fun host => if host = "shop.example" then .ok [] else .ok ["197.97.145.144"]

/-- A world for examples: as `gatewayWorld 200 "VALID"`, with `emptyAnswerResolver` for
DNS. -/
def emptyAnswerWorld : World :=
  { LookupIP := emptyAnswerResolver
    NewRequestError := fun _ => none
    Do := fun _ => .ok ⟨200, .ok "VALID"⟩
    WriteError := none
    order1 := listedOrder
    order2 := listedOrder }

/-- A world for examples: as `gatewayWorld 200 "VALID"`, with both `range` loops starting
at `pf_payment_id`. -/
def rotatedWorld : World :=
  { LookupIP := fun _ => .ok ["197.97.145.144"]
    NewRequestError := fun _ => none
    Do := fun _ => .ok ⟨200, .ok "VALID"⟩
    WriteError := none
    order1 := ["pf_payment_id", "payment_status", "item_name", "m_payment_id"]
    order2 := ["pf_payment_id", "payment_status", "item_name", "m_payment_id"] }

/-- In the words of the specification: the trusted set, the addresses of the trusted
hostnames that resolve. -/
def trustedIps (LookupIP : Resolver) : List String :=
  validHosts.flatMap
    (fun h =>
      match LookupIP h with
      | .ok ips => ips
      | .error _ => [])

/-! ## Library lemmas -/

theorem strings_TrimSuffix_append_amp (s : String) : strings_TrimSuffix (s ++ "&") "&" = s := by
  have h : ("&" : String).data = ['&'] := rfl
  unfold strings_TrimSuffix
  rw [String.data_append, h]
  have hs : (['&'] : List Char).isSuffixOf (s.data ++ ['&']) = true := by
    rw [List.isSuffixOf_iff_suffix]
    exact List.suffix_append _ _
  simp [hs]

theorem strings_TrimSuffix_empty : strings_TrimSuffix "" "&" = "" := by decide

theorem foldl_amp_shift (es : List String) (a : String) :
    es.foldl (fun b s => b ++ (s ++ "&")) (a ++ "&")
      = es.foldl (fun b s => b ++ "&" ++ s) a ++ "&" := by
  induction es generalizing a with
  | nil => rfl
  | cons x xs ih =>
    simp only [List.foldl_cons]
    have : a ++ "&" ++ (x ++ "&") = (a ++ "&" ++ x) ++ "&" := by
      simp [String.append_assoc]
    rw [this, ih]

/-- Appending `e ++ "&"` for every entry and trimming one `&` is `strings.Join` with `&`. -/
theorem trim_foldl_amp (es : List String) :
    strings_TrimSuffix (es.foldl (fun b s => b ++ (s ++ "&")) "") "&" = strings_Join es "&" := by
  cases es with
  | nil => exact strings_TrimSuffix_empty
  | cons e es =>
    simp only [List.foldl_cons, strings_Join]
    have : ("" : String) ++ (e ++ "&") = e ++ "&" := by simp
    rw [this, foldl_amp_shift, strings_TrimSuffix_append_amp]

theorem foldl_sep_data (es : List String) (a sep : String) :
    ∃ t, (es.foldl (fun b s => b ++ sep ++ s) a).data = a.data ++ t := by
  induction es generalizing a with
  | nil => exact ⟨[], by simp⟩
  | cons x xs ih =>
    obtain ⟨t, ht⟩ := ih (a ++ sep ++ x)
    refine ⟨sep.data ++ x.data ++ t, ?_⟩
    rw [List.foldl_cons, ht]
    simp [String.data_append, List.append_assoc]

/-- The first element of a `strings.Join` starts the result. -/
theorem strings_Join_data (e : String) (es : List String) (sep : String) :
    ∃ t, (strings_Join (e :: es) sep).data = e.data ++ t :=
  foldl_sep_data es e sep

theorem head_mismatch (a b : String) (t : List Char) (c d : Char)
    (ha : a.data.head? = some c) (hb : b.data.head? = some d) (hcd : c ≠ d) :
    a.data ++ t ≠ b.data := by
  intro h
  have h2 := congrArg List.head? h
  cases hda : a.data with
  | nil => rw [hda] at ha; simp at ha
  | cons x xs =>
    rw [hda] at ha h2
    simp at ha h2
    rw [← h2] at hb
    simp at hb
    exact hcd (ha ▸ hb)

/-! ## Map lemmas -/

theorem GoMap.index_cons {β : Type} [Inhabited β] (k0 : String) (v0 : β) (rest : GoMap β)
    (k : String) :
    GoMap.index ((k0, v0) :: rest) k = if k = k0 then v0 else GoMap.index rest k := by
  unfold GoMap.index
  by_cases h : k = k0
  · have hb : (k == k0) = true := by simp [h]
    simp [List.lookup, hb, h]
  · have hb : (k == k0) = false := by simp [h]
    simp [List.lookup, hb, h]

theorem GoMap.index_nil {β : Type} [Inhabited β] (k : String) :
    GoMap.index ([] : GoMap β) k = default := rfl

theorem GoMap.index_set {β : Type} [Inhabited β] (m : GoMap β) (key : String) (val : β)
    (k : String) : (m.set key val).index k = if k = key then val else m.index k := by
  induction m with
  | nil =>
    simp only [GoMap.set, GoMap.index_cons, GoMap.index_nil]
  | cons e rest ih =>
    obtain ⟨k0, v0⟩ := e
    by_cases h0 : k0 = key
    · subst h0
      simp only [GoMap.set, if_true, GoMap.index_cons]
      by_cases h : k = k0
      · simp [h]
      · simp [h]
    · simp only [GoMap.set, h0, if_false, GoMap.index_cons, ih]
      by_cases h1 : k = k0
      · have h : ¬ k = key := by rw [h1]; exact h0
        simp [h1, h0]
      · simp [h1]

/-- The first loop of `checkPaymentResult` leaves every `m[k]` as it was. -/
theorem stripSlashes_index (m : GoMap String) (order1 : List String) (k : String) :
    (stripSlashes m order1).index k = m.index k := by
  unfold stripSlashes
  induction order1 generalizing m with
  | nil => rfl
  | cons key rest ih =>
    rw [List.foldl_cons, ih, GoMap.index_set]
    by_cases h : k = key
    · simp [h]
    · simp [h]

theorem GoMap.set_index_self {β : Type} [Inhabited β] (m : GoMap β) (key : String)
    (h : key ∈ m.keys) : m.set key (m.index key) = m := by
  induction m with
  | nil => simp [GoMap.keys] at h
  | cons e rest ih =>
    obtain ⟨k0, v0⟩ := e
    by_cases h0 : k0 = key
    · subst h0
      simp [GoMap.set, GoMap.index_cons]
    · have hk : key ∈ GoMap.keys rest := by
        simp only [GoMap.keys, List.map_cons, List.mem_cons] at h
        rcases h with h | h
        · exact absurd h.symm h0
        · exact h
      have hne : ¬ key = k0 := fun hh => h0 hh.symm
      simp only [GoMap.set, h0, if_false, GoMap.index_cons, hne]
      rw [ih hk]

/-- Over keys of the map, the first loop of `checkPaymentResult` changes nothing. -/
theorem stripSlashes_eq_self (m : GoMap String) (order1 : List String)
    (h : ∀ k ∈ order1, k ∈ m.keys) : stripSlashes m order1 = m := by
  unfold stripSlashes
  induction order1 with
  | nil => rfl
  | cons key rest ih =>
    rw [List.foldl_cons, GoMap.set_index_self m key (h key (List.mem_cons_self _ _))]
    exact ih (fun k hk => h k (List.mem_cons_of_mem _ hk))

theorem sumLoop_eq (m : GoMap String) (ks : List String) (acc : String) :
    sumLoop m ks acc =
      ((ks.takeWhile (fun k => decide (k ≠ "signature"))).map
          (fun k => k ++ "=" ++ QueryEscape (m.index k))).foldl
        (fun b s => b ++ (s ++ "&")) acc := by
  induction ks generalizing acc with
  | nil => rfl
  | cons k rest ih =>
    by_cases h : k = "signature"
    · simp [sumLoop, h]
    · simp [sumLoop, h, ih]

/-- The canonical string in terms of the order of the second `range`: the entries of
the keys yielded before `signature`, joined by `&`. -/
theorem checkPaymentResult_eq (m : GoMap String) (order1 order2 : List String) :
    checkPaymentResult m order1 order2 =
      strings_Join ((order2.takeWhile (fun k => decide (k ≠ "signature"))).map (entryOf m))
        "&" := by
  unfold checkPaymentResult
  simp only [sumLoop_eq, stripSlashes_index]
  exact trim_foldl_amp _

theorem Request.Get_eq_empty_iff (r : Request) (k : String) :
    r.Get k = "" ↔ (r.Query.lookup k = none ∨ r.Query.lookup k = some "") := by
  unfold Request.Get
  cases h : r.Query.lookup k with
  | none => simp
  | some v => simp

theorem hextable_getD (n : Fin 16) : hextable.getD n.val '0' = Nat.digitChar n.val := by
  revert n; decide

theorem hex_EncodeToString_eq_lowerHex (d : Fin 16 → Fin 256) :
    hex_EncodeToString (List.ofFn d) = lowerHex d := by
  unfold hex_EncodeToString lowerHex
  congr 1
  apply List.flatMap_congr
  intro b _
  have h1 := hextable_getD ⟨b.val / 16, by omega⟩
  have h2 := hextable_getD ⟨b.val % 16, by omega⟩
  simp only at h1 h2
  rw [h1, h2]

theorem lowerHex_length (d : Fin 16 → Fin 256) : (lowerHex d).data.length = 32 := by
  unfold lowerHex
  have : ∀ l : List (Fin 256),
      (l.flatMap (fun b => [Nat.digitChar (b.val / 16), Nat.digitChar (b.val % 16)])).length
        = 2 * l.length := by
    intro l
    induction l with
    | nil => rfl
    | cons a t ih => simp [List.flatMap_cons, ih]; omega
  simp [this]

theorem lowerHex_ne_empty (d : Fin 16 → Fin 256) : "" ≠ lowerHex d := by
  intro h
  have := lowerHex_length d
  rw [← h] at this
  simp at this

/-- The order map never has a `signature` entry. -/
theorem orderDataToMap_index_signature (orderData : OrderData) (order1 : List String) :
    (stripSlashes (orderDataToMap orderData) order1).index "signature" = "" := by
  rw [stripSlashes_index]
  simp [orderDataToMap, GoMap.index_cons, GoMap.index_nil]

/-! ## Field extraction -/

/-- The result of `compileOrderData` in terms of the missing parameters. -/
theorem compileOrderData_eq (r : Request) :
    compileOrderData r =
      (if missingOf r = [] then
        .ok ⟨r.Get "m_payment_id", r.Get "pf_payment_id", r.Get "payment_status",
              r.Get "item_name"⟩
      else .error ("missing required order data: " ++ strings_Join (missingOf r) ", ")) := by
  unfold compileOrderData missingOf requiredFields
  simp only [← Request.Get_eq_empty_iff]
  by_cases h1 : r.Get "m_payment_id" = "" <;> by_cases h2 : r.Get "pf_payment_id" = "" <;>
    by_cases h3 : r.Get "payment_status" = "" <;> by_cases h4 : r.Get "item_name" = "" <;>
    simp [h1, h2, h3, h4, List.filter]

/-- On success the order data holds the four query values. -/
theorem compileOrderData_ok (r : Request) (orderData : OrderData)
    (h : compileOrderData r = .ok orderData) :
    orderData = ⟨r.Get "m_payment_id", r.Get "pf_payment_id", r.Get "payment_status",
      r.Get "item_name"⟩ := by
  rw [compileOrderData_eq] at h
  by_cases hm : missingOf r = []
  · simp only [hm, if_true] at h
    injection h with h
    exact h.symm
  · simp only [hm, if_false] at h
    cases h

/-- The result of `compileOrderData` depends on the four required parameters only. -/
theorem compileOrderData_congr (r r2 : Request)
    (h : ∀ k ∈ requiredFields, r2.Get k = r.Get k) :
    compileOrderData r2 = compileOrderData r := by
  have e1 := h "m_payment_id" (by decide)
  have e2 := h "pf_payment_id" (by decide)
  have e3 := h "payment_status" (by decide)
  have e4 := h "item_name" (by decide)
  unfold compileOrderData
  rw [e1, e2, e3, e4]

/-- C1: `compileOrderData` fails exactly when one of the four required query parameters
is empty or absent; the error then names the missing parameters, each once, in the fixed
order, joined by a comma and a blank; on success the order data holds the four query
values unchanged. -/
theorem compileOrderData_spec (r : Request) :
    ((∃ e, compileOrderData r = .error e) ↔
        ∃ k ∈ requiredFields, r.Query.lookup k = none ∨ r.Query.lookup k = some "") ∧
    compileOrderData r =
      (if missingOf r = [] then
        .ok ⟨r.Get "m_payment_id", r.Get "pf_payment_id", r.Get "payment_status",
              r.Get "item_name"⟩
      else .error ("missing required order data: " ++ strings_Join (missingOf r) ", ")) ∧
    (missingOf r).Nodup ∧ (missingOf r).Sublist requiredFields := by
  have hnodup : (missingOf r).Nodup := List.Nodup.filter _ (by decide)
  have hsub : (missingOf r).Sublist requiredFields := List.filter_sublist _
  have hmain := compileOrderData_eq r
  refine ⟨?_, hmain, hnodup, hsub⟩
  rw [hmain]
  have hiff : missingOf r = [] ↔
      ¬ ∃ k ∈ requiredFields, r.Query.lookup k = none ∨ r.Query.lookup k = some "" := by
    unfold missingOf
    rw [List.filter_eq_nil_iff]
    simp
  by_cases hm : missingOf r = []
  · simp only [hm, if_true]
    constructor
    · rintro ⟨e, he⟩; cases he
    · intro h; exact absurd h (hiff.mp hm)
  · simp only [hm, if_false]
    constructor
    · intro _
      by_contra hc
      exact hm (hiff.mpr hc)
    · intro _; exact ⟨_, rfl⟩

/-! ## Signature check -/

/-- C4: `pfValidSignature` returns true exactly when the map's `signature` value equals
the lowercase hex encoding of the 16-byte digest of the canonical string, or, with a
non-empty passphrase, of the canonical string followed by `&passphrase=` and the
escaped passphrase. -/
theorem pfValidSignature_iff (md5Sum : Digest) (orderData : GoMap String)
    (summedOrderData passPhrase : String) :
    (pfValidSignature md5Sum orderData summedOrderData passPhrase = true ↔
      orderData.index "signature" =
        lowerHex (md5Sum
          (if passPhrase = "" then summedOrderData
           else summedOrderData ++ "&passphrase=" ++ QueryEscape passPhrase))) ∧
    (lowerHex (md5Sum (tempParamString summedOrderData passPhrase))).data.length = 32 := by
  refine ⟨?_, lowerHex_length _⟩
  unfold pfValidSignature tempParamString
  simp only [hex_EncodeToString_eq_lowerHex, decide_eq_true_eq]

/-! ## The handler -/

/-- C7: whatever the request and whatever the world answers, the handler writes status
200 and the body `Success`. -/
theorem PaymentNotifyHandler_response (md5Sum : Digest) (w : World)
    (passPhrase pfHost : String) (r : Request) :
    (PaymentNotifyHandler md5Sum w passPhrase pfHost r).statusCode = 200 ∧
    (PaymentNotifyHandler md5Sum w passPhrase pfHost r).body = "Success" := by
  unfold PaymentNotifyHandler
  cases compileOrderData r with
  | error e => exact ⟨rfl, rfl⟩
  | ok orderData =>
    cases pfValidIP w.LookupIP r.Host with
    | none => exact ⟨rfl, rfl⟩
    | some ipValid => exact ⟨rfl, rfl⟩

/-- C10: for a request that passes field extraction the signature check of the handler
returns false, for every passphrase and digest function and whatever `signature`
parameter the request carries: the order map has no `signature` entry, and the empty
string is no 32-character digest.  The failure is logged. -/
theorem PaymentNotifyHandler_signature_false (md5Sum : Digest) (w : World)
    (passPhrase pfHost : String) (r : Request) (orderData : OrderData)
    (h : compileOrderData r = .ok orderData) :
    (PaymentNotifyHandler md5Sum w passPhrase pfHost r).signatureValid = some false ∧
    LogEntry.signatureFailed orderData ∈
      (PaymentNotifyHandler md5Sum w passPhrase pfHost r).log ∧
    (stripSlashes (orderDataToMap orderData) w.order1).index "signature" = "" ∧
    ∀ s : String,
      pfValidSignature md5Sum (stripSlashes (orderDataToMap orderData) w.order1) s passPhrase
        = false := by
  have hsig : ∀ s : String,
      pfValidSignature md5Sum (stripSlashes (orderDataToMap orderData) w.order1) s passPhrase
        = false := by
    intro s
    unfold pfValidSignature
    rw [orderDataToMap_index_signature, hex_EncodeToString_eq_lowerHex]
    exact decide_eq_false (lowerHex_ne_empty _)
  refine ⟨?_, ?_, orderDataToMap_index_signature _ _, hsig⟩
  · unfold PaymentNotifyHandler
    simp only [h, hsig]
    cases pfValidIP w.LookupIP r.Host with
    | none => rfl
    | some ipValid => rfl
  · unfold PaymentNotifyHandler
    simp only [h, hsig]
    cases pfValidIP w.LookupIP r.Host with
    | none => simp
    | some ipValid =>
      simp only
      cases hc : pfValidServerConfirmation w
          (checkPaymentResult (orderDataToMap orderData) w.order1 w.order2) pfHost with
      | mk confirmed confirmationLog =>
        cases confirmed <;> cases ipValid <;> simp

/-- Witness for C10 on the sample notification, sent with a `signature` parameter. -/
theorem PaymentNotifyHandler_signature_false_witness :
    compileOrderData ⟨sampleRequest.Query ++ [("signature", "00000000000000000000000000000000")],
        "www.payfast.co.za"⟩ = .ok sampleOrder ∧
    (PaymentNotifyHandler zeroDigest deadWorld "" "www.payfast.co.za"
        ⟨sampleRequest.Query ++ [("signature", "00000000000000000000000000000000")],
          "www.payfast.co.za"⟩).signatureValid = some false :=
  ⟨rfl, (PaymentNotifyHandler_signature_false zeroDigest deadWorld "" "www.payfast.co.za"
    ⟨sampleRequest.Query ++ [("signature", "00000000000000000000000000000000")],
      "www.payfast.co.za"⟩ sampleOrder rfl).1⟩

/-- The canonical string the handler builds for a request that passes extraction. -/
theorem PaymentNotifyHandler_summed (md5Sum : Digest) (w : World)
    (passPhrase pfHost : String) (r : Request) (orderData : OrderData)
    (h : compileOrderData r = .ok orderData) :
    (PaymentNotifyHandler md5Sum w passPhrase pfHost r).summedOrderData =
      some (checkPaymentResult (orderDataToMap orderData) w.order1 w.order2) := by
  unfold PaymentNotifyHandler
  simp only [h]
  cases pfValidIP w.LookupIP r.Host with
  | none => rfl
  | some ipValid => rfl

/-- A `range` over the order map yields no key `signature`, so the loop never breaks. -/
theorem takeWhile_rangeOrder (orderData : OrderData) (order2 : List String)
    (h : (orderDataToMap orderData).RangeOrder order2) :
    order2.takeWhile (fun k => decide (k ≠ "signature")) = order2 := by
  rw [List.takeWhile_eq_self_iff]
  intro k hk
  have hk2 : k ∈ (orderDataToMap orderData).keys := h.subset hk
  simp [orderDataToMap, GoMap.keys] at hk2
  rcases hk2 with rfl | rfl | rfl | rfl <;> decide

theorem rangeOrder_mem_permutations (orderData : OrderData) (order2 : List String)
    (h : (orderDataToMap orderData).RangeOrder order2) :
    order2 ∈ listedOrder.permutations := by
  rw [List.mem_permutations]
  exact h

/-! ## Canonicalisation -/

/-- C2: the canonical string follows the key order that `range` yields, not the map:
the same map gives two different strings under two range orders, and for fields
submitted as `amount`, `signature`, `token` a range order includes the field after
`signature` while another drops the field before it. -/
theorem checkPaymentResult_range_order_dependent :
    (orderDataToMap sampleOrder).RangeOrder listedOrder ∧
    (orderDataToMap sampleOrder).RangeOrder listedOrder.reverse ∧
    checkPaymentResult (orderDataToMap sampleOrder) listedOrder listedOrder =
      "m_payment_id=1001&pf_payment_id=pf123&payment_status=COMPLETE&item_name=OrderWidget" ∧
    checkPaymentResult (orderDataToMap sampleOrder) listedOrder listedOrder.reverse =
      "item_name=OrderWidget&payment_status=COMPLETE&pf_payment_id=pf123&m_payment_id=1001" ∧
    signedMap.RangeOrder ["token", "amount", "signature"] ∧
    checkPaymentResult signedMap ["token", "amount", "signature"]
      ["token", "amount", "signature"] = "token=t&amount=10" ∧
    signedMap.RangeOrder ["signature", "amount", "token"] ∧
    checkPaymentResult signedMap ["signature", "amount", "token"]
      ["signature", "amount", "token"] = "" := by
  refine ⟨by decide, by decide, by decide, by decide, by decide, by decide, by decide, by decide⟩

/-- C3, as stated, fails: under no range order is the canonical string of the sample
notification the one with the keys `order_reference` and `gateway_payment_id`. -/
theorem sample_canonical_not_spec_keys :
    ¬ ∃ order1 order2 : List String,
      (orderDataToMap sampleOrder).RangeOrder order2 ∧
      checkPaymentResult (orderDataToMap sampleOrder) order1 order2 =
        "order_reference=1001&gateway_payment_id=pf123&payment_status=COMPLETE&item_name=OrderWidget" := by
  rintro ⟨order1, order2, hord, heq⟩
  rw [checkPaymentResult_eq, takeWhile_rangeOrder _ _ hord] at heq
  cases order2 with
  | nil => exact absurd hord.length_eq (by decide)
  | cons k rest =>
    have hk : k ∈ (orderDataToMap sampleOrder).keys := hord.subset (List.mem_cons_self _ _)
    rw [List.map_cons] at heq
    obtain ⟨t, ht⟩ := strings_Join_data (entryOf (orderDataToMap sampleOrder) k)
      (rest.map (entryOf (orderDataToMap sampleOrder))) "&"
    rw [heq] at ht
    simp [orderDataToMap, GoMap.keys] at hk
    rcases hk with rfl | rfl | rfl | rfl
    · exact head_mismatch _ _ t 'm' 'o' (by decide) (by decide) (by decide) ht.symm
    · exact head_mismatch _ _ t 'p' 'o' (by decide) (by decide) (by decide) ht.symm
    · exact head_mismatch _ _ t 'p' 'o' (by decide) (by decide) (by decide) ht.symm
    · exact head_mismatch _ _ t 'i' 'o' (by decide) (by decide) (by decide) ht.symm

/-- C3, amended: the canonical string of the sample notification is the four entries
`m_payment_id=1001`, `pf_payment_id=pf123`, `payment_status=COMPLETE` and
`item_name=OrderWidget` joined by `&`; ranged in the listed key order it is
`m_payment_id=1001&pf_payment_id=pf123&payment_status=COMPLETE&item_name=OrderWidget`;
with the passphrase `secret` the string hashed is the canonical string followed by
`&passphrase=secret`. -/
theorem sample_canonical (order1 order2 : List String)
    (h : (orderDataToMap sampleOrder).RangeOrder order2) :
    (∃ es : List String, es.Perm sampleEntries ∧
      checkPaymentResult (orderDataToMap sampleOrder) order1 order2 = strings_Join es "&") ∧
    checkPaymentResult (orderDataToMap sampleOrder) order1 listedOrder =
      "m_payment_id=1001&pf_payment_id=pf123&payment_status=COMPLETE&item_name=OrderWidget" ∧
    tempParamString (checkPaymentResult (orderDataToMap sampleOrder) order1 order2) "secret" =
      checkPaymentResult (orderDataToMap sampleOrder) order1 order2 ++ "&passphrase=secret" := by
  refine ⟨⟨order2.map (entryOf (orderDataToMap sampleOrder)), ?_, ?_⟩, ?_, ?_⟩
  · have hp : (order2.map (entryOf (orderDataToMap sampleOrder))).Perm
        ((orderDataToMap sampleOrder).keys.map (entryOf (orderDataToMap sampleOrder))) :=
      List.Perm.map _ h
    have hk : (orderDataToMap sampleOrder).keys.map (entryOf (orderDataToMap sampleOrder))
        = sampleEntries := by decide
    rw [hk] at hp
    exact hp
  · rw [checkPaymentResult_eq, takeWhile_rangeOrder _ _ h]
  · rw [checkPaymentResult_eq]
    decide
  · have hq : QueryEscape "secret" = "secret" := by decide
    simp [tempParamString, hq, String.append_assoc]

/-- Witness for C3 at the listed key order. -/
theorem sample_canonical_witness :
    (orderDataToMap sampleOrder).RangeOrder listedOrder ∧
    tempParamString (checkPaymentResult (orderDataToMap sampleOrder) listedOrder listedOrder)
      "secret" =
      checkPaymentResult (orderDataToMap sampleOrder) listedOrder listedOrder
        ++ "&passphrase=secret" :=
  ⟨by decide, (sample_canonical listedOrder listedOrder (by decide)).2.2⟩

/-- C5, as stated, fails: for the sample notification sent with `amount_gross=100.00`
ahead of `signature`, the canonical string the handler builds has the four required
fields only and is the one it builds without the extra field. -/
theorem extra_field_not_canonical :
    (PaymentNotifyHandler zeroDigest (gatewayWorld 200 "VALID") "" "www.payfast.co.za"
        extraRequest).summedOrderData =
      some "m_payment_id=1001&pf_payment_id=pf123&payment_status=COMPLETE&item_name=OrderWidget" ∧
    (PaymentNotifyHandler zeroDigest (gatewayWorld 200 "VALID") "" "www.payfast.co.za"
        extraRequest).summedOrderData =
      (PaymentNotifyHandler zeroDigest (gatewayWorld 200 "VALID") "" "www.payfast.co.za"
        sampleRequest).summedOrderData := by
  have h1 := PaymentNotifyHandler_summed zeroDigest (gatewayWorld 200 "VALID") ""
    "www.payfast.co.za" extraRequest sampleOrder rfl
  have h2 := PaymentNotifyHandler_summed zeroDigest (gatewayWorld 200 "VALID") ""
    "www.payfast.co.za" sampleRequest sampleOrder rfl
  have hc : checkPaymentResult (orderDataToMap sampleOrder) (gatewayWorld 200 "VALID").order1
      (gatewayWorld 200 "VALID").order2 =
      "m_payment_id=1001&pf_payment_id=pf123&payment_status=COMPLETE&item_name=OrderWidget" := by
    decide
  rw [h1, h2, hc]
  exact ⟨rfl, rfl⟩

/-- The canonical string of a run whose second `range` follows an order of the map:
the entries of the order map, joined by `&` in that order. -/
theorem PaymentNotifyHandler_summed_entries (md5Sum : Digest) (w : World)
    (passPhrase pfHost : String) (r : Request) (orderData : OrderData)
    (h : compileOrderData r = .ok orderData)
    (hord : (orderDataToMap orderData).RangeOrder w.order2) :
    (PaymentNotifyHandler md5Sum w passPhrase pfHost r).summedOrderData =
      some (strings_Join (w.order2.map (entryOf (orderDataToMap orderData))) "&") := by
  rw [PaymentNotifyHandler_summed md5Sum w passPhrase pfHost r orderData h,
    checkPaymentResult_eq, takeWhile_rangeOrder _ _ hord]

/-- The entries of the order map are those of the four required query values. -/
theorem entryOf_required (r : Request) (orderData : OrderData)
    (h : compileOrderData r = .ok orderData) (k : String) (hk : k ∈ requiredFields) :
    entryOf (orderDataToMap orderData) k = k ++ "=" ++ QueryEscape (r.Get k) := by
  have hod := compileOrderData_ok r orderData h
  subst hod
  simp [requiredFields] at hk
  rcases hk with rfl | rfl | rfl | rfl <;>
    simp [entryOf, orderDataToMap, GoMap.index_cons]

/-- C5, amended: the canonical string the handler builds and hands to the checks is
exactly the four entries `key=urlencode(value)` of the required parameters, each once,
joined by `&`; no other query field takes part: any notification that agrees on the
four required parameters gets, in any run, a canonical string made of the same four
entries, and the same string whenever the map is ranged in the same order. -/
theorem PaymentNotifyHandler_canonical_required_only (md5Sum : Digest) (w : World)
    (passPhrase pfHost : String) (r : Request) (orderData : OrderData)
    (h : compileOrderData r = .ok orderData)
    (hord : (orderDataToMap orderData).RangeOrder w.order2) :
    (PaymentNotifyHandler md5Sum w passPhrase pfHost r).summedOrderData =
      some (strings_Join (w.order2.map (fun k => k ++ "=" ++ QueryEscape (r.Get k))) "&") ∧
    w.order2.Perm requiredFields ∧
    ∀ (md5Sum2 : Digest) (w2 : World) (passPhrase2 pfHost2 : String) (r2 : Request),
      (∀ k ∈ requiredFields, r2.Get k = r.Get k) →
      (orderDataToMap orderData).RangeOrder w2.order2 →
      (∃ es : List String,
          es.Perm (requiredFields.map (fun k => k ++ "=" ++ QueryEscape (r.Get k))) ∧
          (PaymentNotifyHandler md5Sum2 w2 passPhrase2 pfHost2 r2).summedOrderData =
            some (strings_Join es "&")) ∧
      (w2.order2 = w.order2 →
        (PaymentNotifyHandler md5Sum2 w2 passPhrase2 pfHost2 r2).summedOrderData =
          (PaymentNotifyHandler md5Sum w passPhrase pfHost r).summedOrderData) := by
  have hmap : ∀ order : List String, order.Perm requiredFields →
      order.map (entryOf (orderDataToMap orderData)) =
        order.map (fun k => k ++ "=" ++ QueryEscape (r.Get k)) := by
    intro order ho
    apply List.map_congr_left
    intro k hk
    exact entryOf_required r orderData h k (ho.subset hk)
  refine ⟨?_, hord, ?_⟩
  · rw [PaymentNotifyHandler_summed_entries md5Sum w passPhrase pfHost r orderData h hord,
      hmap w.order2 hord]
  · intro md5Sum2 w2 passPhrase2 pfHost2 r2 hr2 hord2
    have h2 : compileOrderData r2 = .ok orderData := by
      rw [compileOrderData_congr r r2 hr2]; exact h
    have hs2 := PaymentNotifyHandler_summed_entries md5Sum2 w2 passPhrase2 pfHost2 r2
      orderData h2 hord2
    refine ⟨⟨w2.order2.map (fun k => k ++ "=" ++ QueryEscape (r.Get k)), ?_, ?_⟩, ?_⟩
    · exact List.Perm.map _ hord2
    · rw [hs2, hmap w2.order2 hord2]
    · intro heq
      rw [hs2, PaymentNotifyHandler_summed_entries md5Sum w passPhrase pfHost r orderData h
        hord, heq]

/-- Witness for C5 on the notification with the extra field: its canonical string has
the four required entries, and the sample notification without the extra field, ranged
in another order, gets the same four entries. -/
theorem PaymentNotifyHandler_canonical_required_only_witness :
    compileOrderData extraRequest = .ok sampleOrder ∧
    (orderDataToMap sampleOrder).RangeOrder (gatewayWorld 200 "VALID").order2 ∧
    (PaymentNotifyHandler zeroDigest (gatewayWorld 200 "VALID") "" "www.payfast.co.za"
        extraRequest).summedOrderData =
      some (strings_Join
        ((gatewayWorld 200 "VALID").order2.map
          (fun k => k ++ "=" ++ QueryEscape (extraRequest.Get k))) "&") ∧
    (∃ es : List String,
      es.Perm (requiredFields.map (fun k => k ++ "=" ++ QueryEscape (extraRequest.Get k))) ∧
      (PaymentNotifyHandler zeroDigest rotatedWorld "secret" "sandbox.payfast.co.za"
          sampleRequest).summedOrderData = some (strings_Join es "&")) :=
  ⟨rfl, by decide,
    (PaymentNotifyHandler_canonical_required_only zeroDigest (gatewayWorld 200 "VALID") ""
      "www.payfast.co.za" extraRequest sampleOrder rfl (by decide)).1,
    ((PaymentNotifyHandler_canonical_required_only zeroDigest (gatewayWorld 200 "VALID") ""
      "www.payfast.co.za" extraRequest sampleOrder rfl (by decide)).2.2
        zeroDigest rotatedWorld "secret" "sandbox.payfast.co.za" sampleRequest
        (by decide) (by decide)).1⟩

/-! ## Gateway confirmation -/

/-- C6, as stated, fails: a response with status 500 and body `VALID` is taken as a
confirmation. -/
theorem confirmation_ignores_status :
    (pfValidServerConfirmation (gatewayWorld 500 "VALID")
      "m_payment_id=1001&pf_payment_id=pf123&payment_status=COMPLETE&item_name=OrderWidget"
      "www.payfast.co.za").1 = true := by
  rfl

/-- C6, amended: `pfValidServerConfirmation` returns true exactly when the request could
be built, the call returned a response, its body could be read and is exactly `VALID`,
whatever the status code; any other body and any failure of the call give false. -/
theorem pfValidServerConfirmation_iff (w : World) (summedOrderData pfHost : String) :
    (pfValidServerConfirmation w summedOrderData pfHost).1 = true ↔
      w.NewRequestError ("https://" ++ pfHost ++ "/eng/query/validate") = none ∧
      ∃ resp : Response,
        w.Do ⟨"POST", "https://" ++ pfHost ++ "/eng/query/validate", summedOrderData⟩
          = .ok resp ∧
        resp.Body = .ok "VALID" := by
  unfold pfValidServerConfirmation
  cases hn : w.NewRequestError ("https://" ++ pfHost ++ "/eng/query/validate") with
  | some err => simp [hn]
  | none =>
    cases hd : w.Do ⟨"POST", "https://" ++ pfHost ++ "/eng/query/validate", summedOrderData⟩ with
    | error err => simp [hn, hd]
    | ok resp =>
      cases hb : resp.Body with
      | error err => simp [hn, hd, hb]
      | ok body => simp [hn, hd, hb]

/-! ## Origin check -/

theorem splitChars_ne_nil (sep : Char) (cs cur : List Char) :
    ∃ h t, splitChars sep cs cur = h :: t := by
  induction cs generalizing cur with
  | nil => exact ⟨_, _, rfl⟩
  | cons c rest ih =>
    unfold splitChars
    by_cases hc : c = sep
    · simp only [hc, if_true]; exact ⟨_, _, rfl⟩
    · simp only [hc, if_false]; exact ih _

/-- The index expression `strings.Split(referrerHost, "/")[0]` never panics. -/
theorem referrerHostOf_isSome (referrerURL : String) :
    ∃ host, referrerHostOf referrerURL = some host := by
  unfold referrerHostOf strings_Split
  obtain ⟨h, t, ht⟩ := splitChars_ne_nil '/'
    (strings_TrimPrefix (strings_TrimPrefix referrerURL "http://") "https://").data []
  exact ⟨h, by simp [ht]⟩

theorem foldl_append_singleton (ips validIps : List String) :
    ips.foldl (fun validIps ip => validIps ++ [ip]) validIps = validIps ++ ips := by
  induction ips generalizing validIps with
  | nil => simp
  | cons a t ih => simp [List.foldl_cons, ih]

/-- The addresses `pfValidIP` collects are those of the trusted hostnames that
resolve. -/
theorem collectValidIps_eq (LookupIP : Resolver) : collectValidIps LookupIP = trustedIps LookupIP := by
  have hgen : ∀ (hosts acc : List String),
      hosts.foldl
        (fun validIps pfHostname =>
          match LookupIP pfHostname with
          | .ok ips => ips.foldl (fun validIps ip => validIps ++ [ip]) validIps
          | .error _ => validIps)
        acc
      = acc ++ hosts.flatMap
          (fun h =>
            match LookupIP h with
            | .ok ips => ips
            | .error _ => []) := by
    intro hosts
    induction hosts with
    | nil => intro acc; simp
    | cons h t ih =>
      intro acc
      rw [List.foldl_cons, ih, List.flatMap_cons]
      cases LookupIP h with
      | error e => simp
      | ok ips => simp [foldl_append_singleton]
  unfold collectValidIps trustedIps
  rw [hgen]
  simp

/-- Indexing the set `uniqueIps` is membership in the collected addresses. -/
theorem uniqueIps_index (validIps : List String) (m : GoMap Bool) (ip : String) :
    (validIps.foldl (fun m ip => m.set ip true) m).index ip
      = (m.index ip || decide (ip ∈ validIps)) := by
  induction validIps generalizing m with
  | nil => simp
  | cons a t ih =>
    rw [List.foldl_cons, ih, GoMap.index_set]
    by_cases h : ip = a
    · simp [h]
    · simp [h]

/-- What `pfValidIP` returns: false when the origin host does not resolve, membership of
its first address in the trusted set when it resolves to at least one address, and a
panic when the lookup succeeds with no address. -/
theorem pfValidIP_eq (LookupIP : Resolver) (referrerURL : String) :
    ∃ host, referrerHostOf referrerURL = some host ∧
      pfValidIP LookupIP referrerURL =
        match LookupIP host with
        | .error _ => some false
        | .ok [] => none
        | .ok (ip :: _) => some (decide (ip ∈ trustedIps LookupIP)) := by
  obtain ⟨host, hhost⟩ := referrerHostOf_isSome referrerURL
  refine ⟨host, hhost, ?_⟩
  unfold pfValidIP
  simp only [hhost, Option.bind_eq_bind, Option.some_bind, Option.pure_def]
  cases hl : LookupIP host with
  | error e => rfl
  | ok ips =>
    cases ips with
    | nil => rfl
    | cons ip rest =>
      simp only [List.head?_cons, Option.some_bind]
      rw [uniqueIps_index, collectValidIps_eq]
      simp [GoMap.index_nil]

/-- C8: the lookup of the origin host can succeed with no address, and `pfValidIP`
then faults at the index expression `referrerIp[0]` instead of returning false. -/
theorem pfValidIP_empty_answer_panics :
    emptyAnswerResolver "shop.example" = .ok [] ∧
    pfValidIP emptyAnswerResolver "shop.example" = none ∧
    (PaymentNotifyHandler zeroDigest emptyAnswerWorld "" "www.payfast.co.za"
      ⟨sampleRequest.Query, "shop.example"⟩).panicked = true := by
  refine ⟨rfl, by decide, by decide⟩

/-! ## Logging of the three checks -/

/-- The lines `pfValidServerConfirmation` logs are its own three. -/
theorem pfValidServerConfirmation_log (w : World) (summedOrderData pfHost : String)
    (e : LogEntry) (he : e ∈ (pfValidServerConfirmation w summedOrderData pfHost).2) :
    (∃ err, e = .creatingRequest err) ∨ (∃ err, e = .sendingRequest err) ∨
      (∃ err, e = .readingBody err) := by
  unfold pfValidServerConfirmation at he
  cases hn : w.NewRequestError ("https://" ++ pfHost ++ "/eng/query/validate") with
  | some err => simp [hn] at he; exact Or.inl ⟨err, he⟩
  | none =>
    cases hd : w.Do ⟨"POST", "https://" ++ pfHost ++ "/eng/query/validate", summedOrderData⟩ with
    | error err => simp [hn, hd] at he; exact Or.inr (Or.inl ⟨err, he⟩)
    | ok resp =>
      cases hb : resp.Body with
      | error err => simp [hn, hd, hb] at he; exact Or.inr (Or.inr ⟨err, he⟩)
      | ok body => simp [hn, hd, hb] at he

/-- The log of a run that passes extraction and does not panic: the signature and the
origin failure lines are logged exactly when the check returned false, the confirmation
failure line exactly when `pfValidServerConfirmation` returned true. -/
theorem PaymentNotifyHandler_log (md5Sum : Digest) (w : World)
    (passPhrase pfHost : String) (r : Request) (orderData : OrderData)
    (h : compileOrderData r = .ok orderData)
    (hp : (PaymentNotifyHandler md5Sum w passPhrase pfHost r).panicked = false) :
    (LogEntry.signatureFailed orderData ∈ (PaymentNotifyHandler md5Sum w passPhrase pfHost r).log
      ↔ (PaymentNotifyHandler md5Sum w passPhrase pfHost r).signatureValid = some false) ∧
    (LogEntry.ipFailed orderData ∈ (PaymentNotifyHandler md5Sum w passPhrase pfHost r).log
      ↔ (PaymentNotifyHandler md5Sum w passPhrase pfHost r).ipValid = some false) ∧
    (LogEntry.confirmationFailed orderData ∈
        (PaymentNotifyHandler md5Sum w passPhrase pfHost r).log
      ↔ (PaymentNotifyHandler md5Sum w passPhrase pfHost r).confirmed = some true) ∧
    (PaymentNotifyHandler md5Sum w passPhrase pfHost r).confirmed =
      some (pfValidServerConfirmation w
        (checkPaymentResult (orderDataToMap orderData) w.order1 w.order2) pfHost).1 := by
  unfold PaymentNotifyHandler at hp ⊢
  simp only [h] at hp ⊢
  cases hip : pfValidIP w.LookupIP r.Host with
  | none => simp [hip] at hp
  | some ipValid =>
    simp only []
    have hlog := pfValidServerConfirmation_log w
      (checkPaymentResult (orderDataToMap orderData) w.order1 w.order2) pfHost
    cases hc : pfValidServerConfirmation w
        (checkPaymentResult (orderDataToMap orderData) w.order1 w.order2) pfHost with
    | mk confirmed confirmationLog =>
      rw [hc] at hlog
      simp only at hlog
      have n1 : LogEntry.signatureFailed orderData ∉ confirmationLog := by
        intro hm
        rcases hlog _ hm with ⟨_, h1⟩ | ⟨_, h1⟩ | ⟨_, h1⟩ <;> cases h1
      have n2 : LogEntry.ipFailed orderData ∉ confirmationLog := by
        intro hm
        rcases hlog _ hm with ⟨_, h1⟩ | ⟨_, h1⟩ | ⟨_, h1⟩ <;> cases h1
      have n3 : LogEntry.confirmationFailed orderData ∉ confirmationLog := by
        intro hm
        rcases hlog _ hm with ⟨_, h1⟩ | ⟨_, h1⟩ | ⟨_, h1⟩ <;> cases h1
      cases w.WriteError <;> cases confirmed <;> cases ipValid <;>
        cases pfValidSignature md5Sum (stripSlashes (orderDataToMap orderData) w.order1)
          (checkPaymentResult (orderDataToMap orderData) w.order1 w.order2) passPhrase <;>
        simp [n1, n2, n3]

/-- C9: the confirmation failure line is logged when the gateway confirms and is not
logged when it does not: with the answer `VALID` the check returns true and the line
`Server confirmation test failed` is in the log, with the answer `INVALID` the check
returns false and the line is missing. -/
theorem confirmation_log_inverted :
    (PaymentNotifyHandler zeroDigest (gatewayWorld 200 "VALID") "" "www.payfast.co.za"
        sampleRequest).confirmed = some true ∧
    LogEntry.confirmationFailed sampleOrder ∈
      (PaymentNotifyHandler zeroDigest (gatewayWorld 200 "VALID") "" "www.payfast.co.za"
        sampleRequest).log ∧
    (PaymentNotifyHandler zeroDigest (gatewayWorld 200 "INVALID") "" "www.payfast.co.za"
        sampleRequest).confirmed = some false ∧
    LogEntry.confirmationFailed sampleOrder ∉
      (PaymentNotifyHandler zeroDigest (gatewayWorld 200 "INVALID") "" "www.payfast.co.za"
        sampleRequest).log := by
  refine ⟨by decide, by decide, by decide, by decide⟩

end PaymentReturn
